import Mathlib

/-!
Verification development for the wealth-analyst ranking view-model
(`src/unnamed/part_000`, with `src/app/page.tsx` a near-duplicate revision of
the same component).  The definitions below are a shallow embedding of the
component's pure logic: JS numbers are modelled as `JNum` (NaN, signed
infinity, or an exact rational), JS strings as `String`, dynamic values
reached by a sort field path as `JSObj`, and the stateful React handlers as
explicit state-transition functions on `PageModel`.  Wall-clock timestamps
and DOM/blob mechanics are outside the embedding; the CSV export is modelled
by the byte payload it hands to the blob.
-/

/-- A JavaScript number: NaN, a signed infinity, or a finite value (exact rational;
the concrete scores in play are small decimal literals, which doubles
represent exactly). -/
inductive JNum where
  | nan : JNum
  | inf (pos : Bool) : JNum
  | fin (q : ℚ) : JNum
deriving DecidableEq, Repr

/-- JS comparison `<` on numbers: any comparison against NaN is false. -/
def JNum.ltb : JNum → JNum → Bool
  | .nan, _ => false
  | _, .nan => false
  | .inf true, _ => false
  | .inf false, .inf false => false
  | .inf false, _ => true
  | .fin _, .inf true => true
  | .fin _, .inf false => false
  | .fin a, .fin b => decide (a < b)

def digitVal (c : Char) : ℕ := c.toNat - '0'.toNat

/-- Value of a digit run read in base 10 (used by the numeric parsers). -/
def digitsToNatL (ds : List Char) : ℕ := ds.foldl (fun acc c => acc * 10 + digitVal c) 0

def jsHexDigitVal (c : Char) : ℕ :=
  if c.isDigit then digitVal c
  else if 'a' ≤ c ∧ c ≤ 'f' then c.toNat - 'a'.toNat + 10
  else if 'A' ≤ c ∧ c ≤ 'F' then c.toNat - 'A'.toNat + 10
  else 0

def jsIsHexDigit (c : Char) : Bool := c.isDigit || ('a' ≤ c && c ≤ 'f') || ('A' ≤ c && c ≤ 'F')

/-- Value of a digit run in the given base (for `0x`/`0o`/`0b` literals). -/
def baseDigitsVal (base : ℕ) (ds : List Char) : ℕ :=
  ds.foldl (fun acc c => acc * base + jsHexDigitVal c) 0

/-- Char-list test for a leading occurrence of the first list. -/
def startsWithChars : List Char → List Char → Bool
  | [], _ => true
  | _ :: _, [] => false
  | p :: ps, c :: cs => p == c && startsWithChars ps cs

/-- The exact rational `sign * (ipVal.fpVal) * 10^expVal` named by the pieces of a
decimal literal; assembled in integer arithmetic and turned into a `ℚ` by one
`Rat.divInt` (whose normalization, unlike the rational field operations, is
kernel-computable). -/
def decimalPiecesVal (neg : Bool) (ip fp : List Char) (expVal : ℤ) : ℚ :=
  let mant : ℕ := digitsToNatL ip * 10 ^ fp.length + digitsToNatL fp
  let sn : ℤ := if neg then -(mant : ℤ) else (mant : ℤ)
  if 0 ≤ expVal then
    Rat.divInt (sn * ((10 ^ expVal.toNat : ℕ) : ℤ)) ((10 ^ fp.length : ℕ) : ℤ)
  else
    Rat.divInt sn ((10 ^ fp.length * 10 ^ (-expVal).toNat : ℕ) : ℤ)

/-- JS builtin `parseFloat` on a char list: skip leading whitespace, optional sign,
then the longest valid decimal-literal or `Infinity` head; trailing garbage
is ignored, and a missing mantissa gives NaN.  (JS also skips a few exotic
whitespace code points that never occur here.) -/
def parseFloatChars (cs0 : List Char) : JNum :=
  let cs1 := cs0.dropWhile Char.isWhitespace
  let neg : Bool := match cs1 with | '-' :: _ => true | _ => false
  let cs2 : List Char := match cs1 with | '+' :: r => r | '-' :: r => r | _ => cs1
  if startsWithChars "Infinity".data cs2 then JNum.inf !neg
  else
    let ip := cs2.takeWhile Char.isDigit
    let r1 := cs2.dropWhile Char.isDigit
    let fp : List Char := match r1 with
      | '.' :: r => r.takeWhile Char.isDigit
      | _ => []
    let r2 : List Char := match r1 with
      | '.' :: r => r.dropWhile Char.isDigit
      | _ => r1
    if ip = [] ∧ fp = [] then JNum.nan
    else
      let expVal : ℤ :=
        match r2 with
        | e :: r =>
          if e = 'e' ∨ e = 'E' then
            let eneg : Bool := match r with | '-' :: _ => true | _ => false
            let r' : List Char := match r with | '+' :: t => t | '-' :: t => t | _ => r
            let eds := r'.takeWhile Char.isDigit
            if eds = [] then 0
            else if eneg then -(digitsToNatL eds : ℤ) else (digitsToNatL eds : ℤ)
          else 0
        | [] => 0
      JNum.fin (decimalPiecesVal neg ip fp expVal)

def parseFloat (s : String) : JNum := parseFloatChars s.data

/-- Leading and trailing whitespace removed from a char list. -/
def trimChars (cs : List Char) : List Char :=
  ((cs.dropWhile Char.isWhitespace).reverse.dropWhile Char.isWhitespace).reverse

/-- JS builtin `String.prototype.trim`. -/
def jsTrim (s : String) : String := String.mk (trimChars s.data)

/-- Full-string decimal branch of JS `ToNumber` (sign, `Infinity`, or a
complete decimal literal with optional exponent; anything left over is NaN). -/
def toNumberDecimal (cs1 : List Char) : JNum :=
  let neg : Bool := match cs1 with | '-' :: _ => true | _ => false
  let cs2 : List Char := match cs1 with | '+' :: r => r | '-' :: r => r | _ => cs1
  if cs2 = "Infinity".data then JNum.inf !neg
  else
    let ip := cs2.takeWhile Char.isDigit
    let r1 := cs2.dropWhile Char.isDigit
    let fp : List Char := match r1 with
      | '.' :: r => r.takeWhile Char.isDigit
      | _ => []
    let r2 : List Char := match r1 with
      | '.' :: r => r.dropWhile Char.isDigit
      | _ => r1
    if ip = [] ∧ fp = [] then JNum.nan
    else
      match r2 with
      | [] => JNum.fin (decimalPiecesVal neg ip fp 0)
      | e :: r =>
        if e = 'e' ∨ e = 'E' then
          let eneg : Bool := match r with | '-' :: _ => true | _ => false
          let r' : List Char := match r with | '+' :: t => t | '-' :: t => t | _ => r
          let eds := r'.takeWhile Char.isDigit
          if eds = [] ∨ r'.dropWhile Char.isDigit ≠ [] then JNum.nan
          else
            let ev : ℤ :=
              if eneg then -(digitsToNatL eds : ℤ) else (digitsToNatL eds : ℤ)
            JNum.fin (decimalPiecesVal neg ip fp ev)
        else JNum.nan

/-- JS abstract operation `ToNumber` applied to a string: trim, empty means 0, a whole-string
radix literal (`0x`/`0o`/`0b`) means its value, otherwise the full decimal
parse.  Used when `<` coerces a string operand against a number. -/
def toNumber (s : String) : JNum :=
  let cs := trimChars s.data
  match cs with
  | [] => JNum.fin 0
  | '0' :: c :: rest =>
    if (c = 'x' ∨ c = 'X') ∧ rest ≠ [] ∧ rest.all jsIsHexDigit then
      JNum.fin (baseDigitsVal 16 rest)
    else if (c = 'o' ∨ c = 'O') ∧ rest ≠ [] ∧ rest.all (fun d => '0' ≤ d && d ≤ '7') then
      JNum.fin (baseDigitsVal 8 rest)
    else if (c = 'b' ∨ c = 'B') ∧ rest ≠ [] ∧ rest.all (fun d => d = '0' || d = '1') then
      JNum.fin (baseDigitsVal 2 rest)
    else toNumberDecimal cs
  | _ => toNumberDecimal cs

/-- Lexicographic `<` on char lists, the JS relational comparison of two
strings (JS compares UTF-16 code units; on the basic plane these coincide
with the code points compared here). -/
def lexLt : List Char → List Char → Bool
  | _, [] => false
  | [], _ :: _ => true
  | a :: as, b :: bs =>
    if a.val < b.val then true else if b.val < a.val then false else lexLt as bs

/-! ## Data model (wire structures from the component's TypeScript interfaces) -/

structure FourPillarScore where
  historical_returns : String
  risk_adjusted_returns : String
  fundamentals : String
  dividends : String
  overall_score : String
deriving DecidableEq, Repr

structure KeyMetrics where
  current_price : String
  pe_ratio : String
  dividend_yield : String
  week52_high : String
  week52_low : String
deriving DecidableEq, Repr

structure RankedInvestment where
  symbol : String
  name : String
  market : String
  asset_type : String
  four_pillar_score : FourPillarScore
  recommendation : String
  recommendation_rationale : String
  key_metrics : KeyMetrics
deriving DecidableEq, Repr

/-- The agent's analysis payload.  `chart_data` is `any` in the source and is
read only by the chart renderer, so it is carried as an opaque string. -/
structure AnalysisResult where
  conversational_insight : String
  analysis_summary : String
  ranked_investments : List RankedInvestment
  chart_data : String
  csv_export_data : String
deriving DecidableEq, Repr

structure AgentMetadata where
  agent_name : String
  timestamp : String
  markets_analyzed : List String
  analysis_type : Option String
deriving DecidableEq, Repr

/-! ## Dynamic values reached while sorting -/

/-- A JS value reachable by walking a sort field path from an investment:
one of the modelled objects, a string leaf, a number, or `undefined`.
(Inherited prototype methods are not modelled; no sortable path reaches
them.) -/
inductive JSObj where
  | objInv (i : RankedInvestment)
  | objFps (f : FourPillarScore)
  | objKm (k : KeyMetrics)
  | str (s : String)
  | num (n : JNum)
  | undefv
deriving DecidableEq, Repr

/-- Whether a char list is the canonical base-10 numeral of some natural
number (JS resolves `s[k]` string indexing only for canonical numeric keys). -/
def isCanonicalIndex : List Char → Bool
  | [] => false
  | ['0'] => true
  | c :: cs => c ≠ '0' && (c :: cs).all Char.isDigit

/-- One step of the walk `aVal?.[key]`: property lookup on the current value, with
optional chaining collapsing `undefined` accesses to `undefined`. -/
def getKey : JSObj → String → JSObj
  | .objInv i, k =>
    if k = "symbol" then .str i.symbol
    else if k = "name" then .str i.name
    else if k = "market" then .str i.market
    else if k = "asset_type" then .str i.asset_type
    else if k = "four_pillar_score" then .objFps i.four_pillar_score
    else if k = "recommendation" then .str i.recommendation
    else if k = "recommendation_rationale" then .str i.recommendation_rationale
    else if k = "key_metrics" then .objKm i.key_metrics
    else .undefv
  | .objFps f, k =>
    if k = "historical_returns" then .str f.historical_returns
    else if k = "risk_adjusted_returns" then .str f.risk_adjusted_returns
    else if k = "fundamentals" then .str f.fundamentals
    else if k = "dividends" then .str f.dividends
    else if k = "overall_score" then .str f.overall_score
    else .undefv
  | .objKm m, k =>
    if k = "current_price" then .str m.current_price
    else if k = "pe_ratio" then .str m.pe_ratio
    else if k = "dividend_yield" then .str m.dividend_yield
    else if k = "52_week_high" then .str m.week52_high
    else if k = "52_week_low" then .str m.week52_low
    else .undefv
  | .str s, k =>
    if k = "length" then .num (.fin s.length)
    else if isCanonicalIndex k.data ∧ digitsToNatL k.data < s.data.length then
      .str (String.mk [s.data.getD (digitsToNatL k.data) ' '])
    else .undefv
  | .num _, _ => .undefv
  | .undefv, _ => .undefv

/-- JS builtin `String.prototype.split('.')` on the char level. -/
def splitOnDotAux (cur : List Char) : List Char → List (List Char)
  | [] => [cur.reverse]
  | c :: cs => if c = '.' then cur.reverse :: splitOnDotAux [] cs else splitOnDotAux (c :: cur) cs

def splitOnDot (s : String) : List String :=
  (splitOnDotAux [] s.data).map String.mk

/-- The value `sortConfig.key` resolves to on an investment: the source walks
`key.split('.')` with repeated `aVal?.[key]` steps. -/
def resolveSortValue (key : String) (inv : RankedInvestment) : JSObj :=
  (splitOnDot key).foldl getKey (.objInv inv)

/-- The source's `if (typeof aVal === 'string') aVal = parseFloat(aVal) || aVal`:
a string is replaced by its parsed number unless that number is falsy
(0, -0 or NaN), in which case the string is kept. -/
def numifyJS : JSObj → JSObj
  | .str s =>
    match parseFloat s with
    | .fin q => if q = 0 then .str s else .num (.fin q)
    | .nan => .str s
    | .inf b => .num (.inf b)
  | v => v

/-- A primitive JS value as produced by `ToPrimitive` with number hint. -/
inductive JPrim where
  | num (n : JNum)
  | str (s : String)
  | undefv
deriving DecidableEq, Repr

/-- JS `ToPrimitive` of the values the comparator can see (a plain object
stringifies as the object tag). -/
def toPrim : JSObj → JPrim
  | .num n => .num n
  | .str s => .str s
  | .undefv => .undefv
  | .objInv _ => .str "[object Object]"
  | .objFps _ => .str "[object Object]"
  | .objKm _ => .str "[object Object]"

def primToNum : JPrim → JNum
  | .num n => n
  | .str s => toNumber s
  | .undefv => .nan

/-- JS comparison `a < b` for the comparator's operands: two strings compare
lexicographically, anything else is coerced with `ToNumber` (any NaN making
the comparison false). -/
def jsLt (a b : JSObj) : Bool :=
  match toPrim a, toPrim b with
  | .str x, .str y => lexLt x.data y.data
  | pa, pb => JNum.ltb (primToNum pa) (primToNum pb)

inductive SortDir where
  | asc
  | desc
deriving DecidableEq, Repr

structure SortConfig where
  key : String
  direction : SortDir
deriving DecidableEq, Repr

/-- The comparator passed to `filtered.sort` in `getFilteredAndSortedInvestments`:
resolve the field path on both sides, replace truthy-parsing strings by their
numbers, then return -1/1/0 with the sign flipped for descending order. -/
def compareInv (sortConfig : SortConfig) (a b : RankedInvestment) : Int :=
  let aVal := numifyJS (resolveSortValue sortConfig.key a)
  let bVal := numifyJS (resolveSortValue sortConfig.key b)
  if jsLt aVal bVal then (match sortConfig.direction with | .asc => -1 | .desc => 1)
  else if jsLt bVal aVal then (match sortConfig.direction with | .asc => 1 | .desc => -1)
  else 0

/-- Stable insertion step: `a` goes in front of the first element that is not
strictly before it, so elements that compare equal keep their original
relative order. -/
def jsInsert (lt : α → α → Bool) (a : α) : List α → List α
  | [] => [a]
  | b :: bs => if lt b a then b :: jsInsert lt a bs else a :: b :: bs

/-- Stable sort modelling `Array.prototype.sort(comparator)` (JS sorts are
required to be stable; for a consistent comparator the stable order is
unique, so any stable algorithm is a faithful model). -/
def jsSort (lt : α → α → Bool) : List α → List α
  | [] => []
  | a :: as => jsInsert lt a (jsSort lt as)

/-- The component's `filtered.sort((a, b) => ...)` call: an element
goes earlier when the comparator returns a negative number. -/
def sortInvestments (sortConfig : SortConfig) (l : List RankedInvestment) :
    List RankedInvestment :=
  jsSort (fun a b => decide (compareInv sortConfig a b < 0)) l

/-- The filter predicate inside `getFilteredAndSortedInvestments`: an empty
selection list on an axis matches everything (`length === 0 ||`). -/
def investmentMatches (selectedMarkets selectedAssetTypes : List String)
    (inv : RankedInvestment) : Bool :=
  (selectedMarkets.length == 0 || selectedMarkets.contains inv.market) &&
  (selectedAssetTypes.length == 0 || selectedAssetTypes.contains inv.asset_type)

/-- The component's `getFilteredAndSortedInvestments`: no analysis data
gives `[]`, otherwise filter by the market/asset selections and sort with the
comparator.  (`.filter` allocates a fresh array, so the in-place `.sort`
never touches `analysisData.ranked_investments`.) -/
def getFilteredAndSortedInvestments (analysisData : Option AnalysisResult)
    (selectedMarkets selectedAssetTypes : List String) (sortConfig : SortConfig) :
    List RankedInvestment :=
  match analysisData with
  | none => []
  | some ad =>
    sortInvestments sortConfig
      (ad.ranked_investments.filter (investmentMatches selectedMarkets selectedAssetTypes))

/-! ## Pagination -/

/-- JS builtin `Array.prototype.slice(start, end)`: negative indices count from the
end, both are clamped into `[0, length]`, and an empty or inverted range
yields `[]`; no argument ever throws. -/
def jsSlice (l : List α) (start stop : Int) : List α :=
  let len : Int := l.length
  let s : Int := if start < 0 then max (len + start) 0 else min start len
  let e : Int := if stop < 0 then max (len + stop) 0 else min stop len
  (l.drop s.toNat).take (e - s).toNat

/-- The component's `ITEMS_PER_PAGE`. -/
def ITEMS_PER_PAGE : ℕ := 10

/-- Ceiling division `Math.ceil(n / p)` for naturals (exact: the float division of the small
list lengths in play is exact enough for its ceiling to be the rational
ceiling), the component's `totalPages`. -/
def totalPagesJS (n p : ℕ) : ℕ := (n + p - 1) / p

/-- The component's page window
`filtered.slice((currentPage - 1) * ITEMS_PER_PAGE, currentPage * ITEMS_PER_PAGE)`,
with the page size kept as a parameter. -/
def paginate (l : List α) (itemsPerPage : ℕ) (page : Int) : List α :=
  jsSlice l ((page - 1) * itemsPerPage) (page * itemsPerPage)

/-- The component's `paginatedInvestments`, at its fixed page size. -/
def paginatedInvestments (filtered : List RankedInvestment) (currentPage : Int) :
    List RankedInvestment :=
  paginate filtered ITEMS_PER_PAGE currentPage

/-- What the claim asserts `totalPages` to be (`max(1, ceil(n/p))`), kept
separate for comparison with the component's `totalPagesJS`. -/
def claimTotalPages (n p : ℕ) : ℕ := max 1 ((n + p - 1) / p)

/-! ## Score codec -/

/-- The component's `scoreToPercentage`: `parseFloat` the score, NaN means 0, otherwise
`(num / 10) * 100` with no clamping. -/
def scoreToPercentage (score : String) : JNum :=
  match parseFloat score with
  | .nan => .fin 0
  | .fin q => .fin (q / 10 * 100)
  | .inf b => .inf b

/-- The object-literal lookup `map[pillar]` inside `pillarToPercentage`
(`undefined` when the label is not a key). -/
def pillarMapLookup (pillar : String) : Option ℕ :=
  if pillar = "Excellent" then some 95
  else if pillar = "Very Good" then some 85
  else if pillar = "Strong" then some 80
  else if pillar = "Good" then some 70
  else if pillar = "Moderate" then some 60
  else if pillar = "Solid (hard asset)" then some 75
  else if pillar = "Index-based" then some 85
  else if pillar = "N/A" then some 0
  else none

/-- The component's `pillarToPercentage`: `map[pillar] || 50` — both a missing key and the
falsy looked-up value 0 fall through to 50. -/
def pillarToPercentage (pillar : String) : ℕ :=
  match pillarMapLookup pillar with
  | some v => if v = 0 then 50 else v
  | none => 50

/-! ## CSV export -/

/-- The component's `handleExportCSV`: `if (!analysisData?.csv_export_data) return` guards
both the missing result and the empty payload; otherwise the blob receives
the payload verbatim.  The returned value is the byte content handed to the
blob (`none` when no file is produced); the function is total, so no path
raises. -/
def handleExportCSV (analysisData : Option AnalysisResult) : Option String :=
  match analysisData with
  | none => none
  | some ad => if ad.csv_export_data = "" then none else some ad.csv_export_data

/-! ## Agent session state machine -/

inductive ChatRole where
  | user
  | assistant
deriving DecidableEq, Repr

/-- A conversation entry (the wall-clock `timestamp: Date` carries no logic
and is omitted from the embedding). -/
structure ChatMessage where
  role : ChatRole
  content : String
  data : Option AnalysisResult := none
  metadata : Option AgentMetadata := none
deriving DecidableEq, Repr

/-- The `response` object of `callAIAgent`'s result. -/
structure AgentResponse where
  status : String
  result : Option AnalysisResult
  metadata : Option AgentMetadata
  message : Option String
deriving DecidableEq, Repr

structure AgentResult where
  success : Bool
  response : AgentResponse
deriving DecidableEq, Repr

/-- Outcome of awaiting `callAIAgent`: either a returned value or a rejected
promise landing in the `catch` block. -/
inductive AgentOutcome where
  | ok (result : AgentResult)
  | thrown
deriving DecidableEq, Repr

/-- The component state touched by `handleSendMessage` plus the remaining
sidebar state it leaves alone. -/
structure PageModel where
  chatMessages : List ChatMessage
  inputMessage : String
  analysisData : Option AnalysisResult
  currentPage : Int
  loading : Bool
  selectedMarkets : List String
  selectedAssetTypes : List String
  riskLevel : String
  sortConfig : SortConfig
deriving DecidableEq, Repr

/-- JS disjunction `a || b` on strings: the empty string is falsy. -/
def jsOrS (a b : String) : String := if a = "" then b else a

/-- JS disjunction `a || b` where `a` is an optional string (`undefined` and `""` both
fall through). -/
def jsOrOptS (a : Option String) (b : String) : String :=
  match a with
  | none => b
  | some s => jsOrS s b

/-- The component's `handleSendMessage(message?)` (`src/unnamed/part_000`), as a transition
on `PageModel` given the awaited agent outcome.  Returns the new state and
whether the agent was called.  A `status === 'success'` response whose
`result` is missing makes `data.conversational_insight` throw inside the
`try`, landing in the same `catch` as a transport failure.  The trailing
`finally` clears `loading` on every path that passed the guard. -/
def handleSendMessage (message : Option String) (outcome : AgentOutcome)
    (st : PageModel) : PageModel × Bool :=
  let messageToSend := jsOrOptS message (jsTrim st.inputMessage)
  if messageToSend = "" ∧ (message = none ∨ message = some "") then (st, false)
  else
    let st1 : PageModel :=
      { st with
        loading := true,
        chatMessages := st.chatMessages ++ [{ role := .user, content := messageToSend }],
        inputMessage := "" }
    let st2 : PageModel :=
      match outcome with
      | .ok result =>
        if result.success && result.response.status == "success" then
          match result.response.result with
          | some data =>
            { st1 with
              chatMessages := st1.chatMessages ++
                [{ role := .assistant,
                   content := jsOrS data.conversational_insight
                     (jsOrS data.analysis_summary "Analysis complete."),
                   data := some data,
                   metadata := result.response.metadata }],
              analysisData := some data,
              currentPage := 1 }
          | none =>
            { st1 with
              chatMessages := st1.chatMessages ++
                [{ role := .assistant, content := "Network error. Please try again." }] }
        else
          { st1 with
            chatMessages := st1.chatMessages ++
              [{ role := .assistant,
                 content := jsOrOptS result.response.message
                   "Sorry, I encountered an error processing your request." }] }
      | .thrown =>
        { st1 with
          chatMessages := st1.chatMessages ++
            [{ role := .assistant, content := "Network error. Please try again." }] }
    ({ st2 with loading := false }, true)

/-- The full table derivation around `getFilteredAndSortedInvestments`,
keeping the JS aliasing explicit: `.filter` allocates a fresh array, the
in-place `.sort` mutates only that fresh array, and the final contents of
the source array are returned alongside the derived view (sorted list, page
window, page count). -/
def deriveTable (invs : List RankedInvestment) (selectedMarkets selectedAssetTypes : List String)
    (sortConfig : SortConfig) (pageSize : ℕ) (page : Int) :
    (List RankedInvestment × List RankedInvestment × ℕ) × List RankedInvestment :=
  let filtered := invs.filter (investmentMatches selectedMarkets selectedAssetTypes)
  let sorted := sortInvestments sortConfig filtered
  ((sorted, paginate sorted pageSize page, totalPagesJS sorted.length pageSize), invs)

/-- What the claim calls a string "parsing fully as a decimal number": an
optional sign and digits with an optional fractional part covering the whole
string; kept separate from the component's `parseFloat` for comparison. -/
def claimFullDecimal (s : String) : Option ℚ :=
  let cs1 := s.data
  let neg : Bool := match cs1 with | '-' :: _ => true | _ => false
  let cs2 : List Char := match cs1 with | '+' :: r => r | '-' :: r => r | _ => cs1
  let ip := cs2.takeWhile Char.isDigit
  let r1 := cs2.dropWhile Char.isDigit
  match r1 with
  | [] => if ip = [] then none else some (decimalPiecesVal neg ip [] 0)
  | '.' :: r =>
    let fp := r.takeWhile Char.isDigit
    if r.dropWhile Char.isDigit = [] ∧ ¬(ip = [] ∧ fp = []) then
      some (decimalPiecesVal neg ip fp 0)
    else none
  | _ => none

/-! ## Fixtures used by concrete witnesses and counterexamples -/

/-- An analysis payload fixture with a chosen insight, summary, investments
and CSV payload. -/
def mkAnalysis (insight summary : String) (invs : List RankedInvestment)
    (csv : String) : AnalysisResult :=
  { conversational_insight := insight, analysis_summary := summary,
    ranked_investments := invs, chart_data := "", csv_export_data := csv }

/-- A fresh component state fixture. -/
def st0 : PageModel :=
  { chatMessages := [], inputMessage := "", analysisData := none,
    currentPage := 1, loading := false,
    selectedMarkets := ["NSE", "BSE", "CMX", "US"],
    selectedAssetTypes := ["stock", "mutual_fund", "etf"],
    riskLevel := "Medium",
    sortConfig := { key := "four_pillar_score.overall_score", direction := .desc } }

/-- A logically failed agent result (`status` is not `success`) whose
`message` field is present but empty. -/
def rFailEmptyMsg : AgentResult :=
  { success := true,
    response := { status := "failure", result := none, metadata := none,
                  message := some "" } }

/-- A logically failed agent result carrying a non-empty message. -/
def rFailWithMsg : AgentResult :=
  { success := true,
    response := { status := "failure", result := none, metadata := none,
                  message := some "No data for that market." } }

/-- A full-success agent result whose payload has an empty insight and a
non-empty summary (exercising the fallback chain). -/
def rOkSummaryOnly : AgentResult :=
  { success := true,
    response := { status := "success",
                  result := some (mkAnalysis "" "Markets look balanced." [] "csv"),
                  metadata := none,
                  message := none } }

/-- An investment fixture with the given symbol, market, asset type and
overall score. -/
def mkInv (symbol market assetType score : String) : RankedInvestment :=
  { symbol := symbol, name := symbol, market := market, asset_type := assetType,
    four_pillar_score :=
      { historical_returns := "Good", risk_adjusted_returns := "Good",
        fundamentals := "Good", dividends := "Good", overall_score := score },
    recommendation := "Buy", recommendation_rationale := "",
    key_metrics :=
      { current_price := "100", pe_ratio := "10", dividend_yield := "2",
        week52_high := "120", week52_low := "80" } }

/-! ## Claim theorems: session state machine -/

/-- C9: with no message argument and an input field whose trimmed text is
empty, `handleSendMessage` returns before touching anything: the state is
unchanged and the agent is not called. -/
theorem c9_empty_submit_noop (st : PageModel) (outcome : AgentOutcome)
    (h : jsTrim st.inputMessage = "") :
    handleSendMessage none outcome st = (st, false) := by
  simp [handleSendMessage, jsOrOptS, h]

/-- Witness for `c9_empty_submit_noop` at a concrete state whose input is
whitespace only. -/
theorem c9_empty_submit_noop_witness :
    handleSendMessage none .thrown
      { chatMessages := [], inputMessage := "  ", analysisData := none,
        currentPage := 1, loading := false, selectedMarkets := ["NSE"],
        selectedAssetTypes := ["stock"], riskLevel := "Medium",
        sortConfig := { key := "symbol", direction := .asc } }
      = ({ chatMessages := [], inputMessage := "  ", analysisData := none,
           currentPage := 1, loading := false, selectedMarkets := ["NSE"],
           selectedAssetTypes := ["stock"], riskLevel := "Medium",
           sortConfig := { key := "symbol", direction := .asc } }, false) :=
  c9_empty_submit_noop _ _ (by decide)

/-- C10: the CSV export is a no-op (no file, no error) when there is no
analysis result or the `csv_export_data` payload is empty, and otherwise the
payload bytes pass through verbatim. -/
theorem c10_export_csv_guard :
    handleExportCSV none = none
    ∧ (∀ d : AnalysisResult, d.csv_export_data = "" → handleExportCSV (some d) = none)
    ∧ (∀ d : AnalysisResult, d.csv_export_data ≠ "" →
        handleExportCSV (some d) = some d.csv_export_data) := by
  refine ⟨rfl, ?_, ?_⟩ <;> intro d h <;> simp [handleExportCSV, h]

/-- Witness for `c10_export_csv_guard` on concrete payloads. -/
theorem c10_export_csv_guard_witness :
    handleExportCSV (some (mkAnalysis "" "" [] "")) = none
    ∧ handleExportCSV (some (mkAnalysis "" "" [] "a,b")) = some "a,b" :=
  ⟨c10_export_csv_guard.2.1 _ (by decide), c10_export_csv_guard.2.2 _ (by decide)⟩

/-- C8: the filter-sort-paginate derivation is pure: it leaves the stored
investment list untouched (`.filter` copies before the in-place `.sort`),
so running it a second time on the post-run store yields the same result. -/
theorem c8_pipeline_pure_idempotent (invs : List RankedInvestment)
    (selM selA : List String) (sortConfig : SortConfig) (pageSize : ℕ) (page : Int) :
    (deriveTable invs selM selA sortConfig pageSize page).2 = invs
    ∧ deriveTable (deriveTable invs selM selA sortConfig pageSize page).2
        selM selA sortConfig pageSize page
      = deriveTable invs selM selA sortConfig pageSize page :=
  ⟨rfl, rfl⟩

/-- The submit guard is passed whenever a nonempty message argument is given. -/
theorem submit_guard_passes (msg : String) (st : PageModel) (hmsg : msg ≠ "") :
    ¬(jsOrOptS (some msg) (jsTrim st.inputMessage) = ""
      ∧ ((some msg : Option String) = none ∨ (some msg : Option String) = some "")) := by
  rintro ⟨h1, h2 | h2⟩
  · exact Option.noConfusion h2
  · exact hmsg (Option.some.inj h2)

/-- C3: on a transport-level failure the conversation gains the user entry and
exactly one assistant entry with the generic network-error message, the stored
analysis result and page are unchanged, and (for every outcome whatsoever)
`loading` is false once the call completes. -/
theorem c3_transport_failure (msg : String) (st : PageModel) (hmsg : msg ≠ "") :
    (∀ outcome, ((handleSendMessage (some msg) outcome st).1).loading = false)
    ∧ (handleSendMessage (some msg) .thrown st).1.chatMessages
        = st.chatMessages
          ++ [{ role := .user, content := msg },
              { role := .assistant, content := "Network error. Please try again." }]
    ∧ (handleSendMessage (some msg) .thrown st).1.analysisData = st.analysisData
    ∧ (handleSendMessage (some msg) .thrown st).1.currentPage = st.currentPage := by
  have hguard := submit_guard_passes msg st hmsg
  have hmts : jsOrOptS (some msg) (jsTrim st.inputMessage) = msg := by
    simp [jsOrOptS, jsOrS, hmsg]
  refine ⟨?_, ?_, ?_, ?_⟩
  · intro outcome
    simp only [handleSendMessage, if_neg hguard]
  · simp only [handleSendMessage, if_neg hguard]
    simp [hmts]
  · simp only [handleSendMessage, if_neg hguard]
  · simp only [handleSendMessage, if_neg hguard]

/-- Witness for `c3_transport_failure` at a concrete state and message. -/
theorem c3_transport_failure_witness :
    (∀ outcome, ((handleSendMessage (some "hello") outcome st0).1).loading = false)
    ∧ (handleSendMessage (some "hello") .thrown st0).1.chatMessages
        = st0.chatMessages
          ++ [{ role := .user, content := "hello" },
              { role := .assistant, content := "Network error. Please try again." }]
    ∧ (handleSendMessage (some "hello") .thrown st0).1.analysisData = st0.analysisData
    ∧ (handleSendMessage (some "hello") .thrown st0).1.currentPage = st0.currentPage :=
  c3_transport_failure "hello" st0 (by decide)

/-- C7 counterexample: on transport success with `payload.status != success`
and an agent-supplied message that is present but empty, the appended
assistant entry carries the fallback text, not the agent-supplied message —
so "whose text is the agent-supplied message" fails as stated. -/
theorem c7_logical_failure_counterexample :
    rFailEmptyMsg.response.message = some ""
    ∧ (handleSendMessage (some "hello") (.ok rFailEmptyMsg) st0).1.chatMessages
        = [{ role := .user, content := "hello" },
           { role := .assistant,
             content := "Sorry, I encountered an error processing your request." }]
    ∧ "Sorry, I encountered an error processing your request." ≠ "" := by
  refine ⟨rfl, ?_, by decide⟩
  decide

/-- C7 (amended): on transport success with `payload.status != success`, the
conversation gains exactly one assistant entry whose text is the
agent-supplied message when that message is present and non-empty, and the
fixed fallback string when it is absent or empty; the stored analysis result
and the current page are not updated. -/
theorem c7_logical_failure_amended (msg : String) (r : AgentResult) (st : PageModel)
    (hmsg : msg ≠ "")
    (hfail : r.success = false ∨ r.response.status ≠ "success") :
    (∀ m, r.response.message = some m → m ≠ "" →
        (handleSendMessage (some msg) (.ok r) st).1.chatMessages
          = st.chatMessages
            ++ [{ role := .user, content := msg }, { role := .assistant, content := m }])
    ∧ ((r.response.message = none ∨ r.response.message = some "") →
        (handleSendMessage (some msg) (.ok r) st).1.chatMessages
          = st.chatMessages
            ++ [{ role := .user, content := msg },
                { role := .assistant,
                  content := "Sorry, I encountered an error processing your request." }])
    ∧ (handleSendMessage (some msg) (.ok r) st).1.analysisData = st.analysisData
    ∧ (handleSendMessage (some msg) (.ok r) st).1.currentPage = st.currentPage := by
  have hguard := submit_guard_passes msg st hmsg
  have hmts : jsOrOptS (some msg) (jsTrim st.inputMessage) = msg := by
    simp [jsOrOptS, jsOrS, hmsg]
  have hcond : (r.success && r.response.status == "success") = false := by
    rcases hfail with h | h
    · simp [h]
    · simp [h]
  refine ⟨?_, ?_, ?_, ?_⟩
  · intro m hm hm0
    simp only [handleSendMessage, if_neg hguard, hcond]
    simp [hmts, hm, jsOrOptS, jsOrS, hm0, hmsg]
  · intro hm
    rcases hm with hm | hm
    · simp only [handleSendMessage, if_neg hguard, hcond]
      simp [hmts, hm, jsOrOptS, jsOrS, hmsg]
    · simp only [handleSendMessage, if_neg hguard, hcond]
      simp [hmts, hm, jsOrOptS, jsOrS, hmsg]
  · simp only [handleSendMessage, if_neg hguard, hcond]
    simp
  · simp only [handleSendMessage, if_neg hguard, hcond]
    simp

/-- Witness for `c7_logical_failure_amended` on a concrete failed response. -/
theorem c7_logical_failure_amended_witness :
    (handleSendMessage (some "hello") (.ok rFailWithMsg) st0).1.chatMessages
      = st0.chatMessages
        ++ [{ role := .user, content := "hello" },
            { role := .assistant, content := "No data for that market." }]
    ∧ (handleSendMessage (some "hello") (.ok rFailWithMsg) st0).1.analysisData
        = st0.analysisData :=
  ⟨(c7_logical_failure_amended "hello" rFailWithMsg st0 (by decide)
      (Or.inr (by decide))).1 "No data for that market." rfl (by decide),
   (c7_logical_failure_amended "hello" rFailWithMsg st0 (by decide)
      (Or.inr (by decide))).2.2.1⟩

/-- C1: on transport success with `payload.status === 'success'` and a
payload carrying its result, the conversation gains the user entry and
exactly one assistant entry whose text is the conversational insight,
falling back to the analysis summary when the insight is empty and to the
fixed default string when both are empty; the stored analysis result is
replaced wholesale by the payload and the current page is reset to 1. -/
theorem c1_submit_full_success (msg : String) (r : AgentResult) (data : AnalysisResult)
    (st : PageModel) (hmsg : msg ≠ "") (hs : r.success = true)
    (hst : r.response.status = "success") (hres : r.response.result = some data) :
    (handleSendMessage (some msg) (.ok r) st).1.chatMessages
      = st.chatMessages
        ++ [{ role := .user, content := msg },
            { role := .assistant,
              content :=
                if data.conversational_insight ≠ "" then data.conversational_insight
                else if data.analysis_summary ≠ "" then data.analysis_summary
                else "Analysis complete.",
              data := some data,
              metadata := r.response.metadata }]
    ∧ (handleSendMessage (some msg) (.ok r) st).1.analysisData = some data
    ∧ (handleSendMessage (some msg) (.ok r) st).1.currentPage = 1 := by
  have hguard := submit_guard_passes msg st hmsg
  have hmts : jsOrOptS (some msg) (jsTrim st.inputMessage) = msg := by
    simp [jsOrOptS, jsOrS, hmsg]
  refine ⟨?_, ?_, ?_⟩ <;>
    simp only [handleSendMessage, if_neg hguard, hs, hst, hres] <;>
    simp [hmts, hmsg, jsOrS, ite_not]

/-- Witness for `c1_submit_full_success`: with an empty insight the appended
assistant text is the analysis summary, the payload replaces the stored
result, and the page resets to 1. -/
theorem c1_submit_full_success_witness :
    (handleSendMessage (some "rank these") (.ok rOkSummaryOnly) st0).1.chatMessages
      = [{ role := .user, content := "rank these" },
         { role := .assistant, content := "Markets look balanced.",
           data := some (mkAnalysis "" "Markets look balanced." [] "csv"),
           metadata := none }]
    ∧ (handleSendMessage (some "rank these") (.ok rOkSummaryOnly) st0).1.analysisData
        = some (mkAnalysis "" "Markets look balanced." [] "csv")
    ∧ (handleSendMessage (some "rank these") (.ok rOkSummaryOnly) st0).1.currentPage = 1 := by
  have h := c1_submit_full_success "rank these" rOkSummaryOnly
    (mkAnalysis "" "Markets look balanced." [] "csv") st0 (by decide) rfl rfl rfl
  simpa [st0, mkAnalysis] using h

/-! ## Claim theorems: filtering -/

/-- Pointwise reading of the filter predicate: an investment passes iff each
axis is either unselected (empty list, acting as match-all) or contains the
investment's value. -/
theorem investmentMatches_iff (mkts ats : List String) (inv : RankedInvestment) :
    investmentMatches mkts ats inv = true
      ↔ ((mkts = [] ∨ inv.market ∈ mkts) ∧ (ats = [] ∨ inv.asset_type ∈ ats)) := by
  simp [investmentMatches, List.length_eq_zero]

/-- C6: the filter returns exactly the subsequence of investments whose
market and asset type pass the respective axis (an empty selection matching
everything on that axis); in particular with markets `["NSE"]` every
surviving investment is an NSE one. -/
theorem c6_filter_subsequence (invs : List RankedInvestment) (mkts ats : List String) :
    invs.filter (investmentMatches mkts ats)
      = invs.filter (fun inv =>
          decide ((mkts = [] ∨ inv.market ∈ mkts) ∧ (ats = [] ∨ inv.asset_type ∈ ats)))
    ∧ (invs.filter (investmentMatches mkts ats)).Sublist invs
    ∧ (mkts = ["NSE"] →
        ∀ inv ∈ invs.filter (investmentMatches mkts ats), inv.market = "NSE") := by
  refine ⟨?_, List.filter_sublist _, ?_⟩
  · refine List.filter_congr ?_
    intro inv _
    rw [Bool.eq_iff_iff]
    simp [investmentMatches_iff]
  · rintro rfl inv hmem
    have := List.of_mem_filter hmem
    rcases (investmentMatches_iff _ _ _).mp this with ⟨hm, _⟩
    rcases hm with h | h
    · exact absurd h (by decide)
    · simpa using h

/-- Witness for `c6_filter_subsequence`: with markets `["NSE"]` the US row is
dropped and only the NSE row survives. -/
theorem c6_filter_subsequence_witness :
    [mkInv "TCS" "NSE" "stock" "9", mkInv "AAPL" "US" "stock" "8"].filter
        (investmentMatches ["NSE"] ["stock"])
      = [mkInv "TCS" "NSE" "stock" "9"]
    ∧ ∀ inv ∈ [mkInv "TCS" "NSE" "stock" "9", mkInv "AAPL" "US" "stock" "8"].filter
        (investmentMatches ["NSE"] ["stock"]), inv.market = "NSE" :=
  ⟨by decide,
   (c6_filter_subsequence [mkInv "TCS" "NSE" "stock" "9", mkInv "AAPL" "US" "stock" "8"]
      ["NSE"] ["stock"]).2.2 rfl⟩

/-! ## Claim theorems: sorting -/

theorem jsInsert_perm (lt : α → α → Bool) (a : α) (l : List α) :
    (jsInsert lt a l).Perm (a :: l) := by
  induction l with
  | nil => simp [jsInsert]
  | cons b bs ih =>
    by_cases h : lt b a
    · simp only [jsInsert, if_pos h]
      exact (ih.cons b).trans (List.Perm.swap a b bs)
    · simp [jsInsert, h]

theorem jsSort_perm (lt : α → α → Bool) (l : List α) : (jsSort lt l).Perm l := by
  induction l with
  | nil => exact List.Perm.refl _
  | cons a as ih => exact (jsInsert_perm lt a _).trans (ih.cons a)

theorem sublist_jsInsert (lt : α → α → Bool) (a : α) (l : List α) :
    l.Sublist (jsInsert lt a l) := by
  induction l with
  | nil => simp [jsInsert]
  | cons b bs ih =>
    by_cases h : lt b a
    · simpa [jsInsert, h] using ih.cons₂ b
    · simp [jsInsert, h]

/-- Inserting `a` places it in front of every remaining element that is not
strictly before it: if `b` is in the list and not strictly before `a`, then
`a` precedes `b` afterwards. -/
theorem pair_sublist_jsInsert (lt : α → α → Bool) {a b : α} {l : List α}
    (hmem : b ∈ l) (hba : lt b a = false) : [a, b].Sublist (jsInsert lt a l) := by
  induction l with
  | nil => cases hmem
  | cons y ys ih =>
    by_cases h : lt y a
    · rcases List.mem_cons.mp hmem with rfl | hmem'
      · rw [hba] at h; cases h
      · simp only [jsInsert, if_pos h]
        exact (ih hmem').cons y
    · simp only [jsInsert, if_neg h]
      exact (List.singleton_sublist.mpr hmem).cons₂ a

/-- Stability of the modelled sort: a pair whose later element is not
strictly before the earlier one keeps its order. -/
theorem jsSort_stable_pair (lt : α → α → Bool) {a b : α} {l : List α}
    (hab : [a, b].Sublist l) (hba : lt b a = false) :
    [a, b].Sublist (jsSort lt l) := by
  induction l with
  | nil => cases hab
  | cons x xs ih =>
    cases hab with
    | cons _ h => exact (ih h).trans (sublist_jsInsert lt x (jsSort lt xs))
    | cons₂ _ h =>
      have hb : b ∈ jsSort lt xs := ((jsSort_perm lt xs).mem_iff).mpr (List.singleton_sublist.mp h)
      exact pair_sublist_jsInsert lt hb hba

/-- Descending order only flips the comparator's sign. -/
theorem compareInv_flip (key : String) (a b : RankedInvestment) :
    compareInv { key := key, direction := .desc } a b
      = -compareInv { key := key, direction := .asc } a b := by
  simp only [compareInv]
  split_ifs <;> simp

/-- A vanishing comparator is symmetric in its arguments. -/
theorem compareInv_swap_zero {sc : SortConfig} {a b : RankedInvestment}
    (h : compareInv sc a b = 0) : compareInv sc b a = 0 := by
  rcases sc with ⟨key, dir⟩
  cases dir <;>
    · simp only [compareInv] at h ⊢
      split_ifs at h ⊢ <;> simp_all

/-- When both resolved values are strings whose `parseFloat` value is a
nonzero rational, the comparator compares those rationals. -/
theorem compareInv_numeric (key : String) (a b : RankedInvestment) (sa sb : String)
    (qa qb : ℚ) (hra : resolveSortValue key a = .str sa)
    (hrb : resolveSortValue key b = .str sb)
    (hpa : parseFloat sa = .fin qa) (hpb : parseFloat sb = .fin qb)
    (hqa : qa ≠ 0) (hqb : qb ≠ 0) :
    compareInv { key := key, direction := .asc } a b
      = if qa < qb then -1 else if qb < qa then 1 else 0 := by
  have ha : numifyJS (resolveSortValue key a) = .num (.fin qa) := by
    rw [hra]; simp [numifyJS, hpa, hqa]
  have hb : numifyJS (resolveSortValue key b) = .num (.fin qb) := by
    rw [hrb]; simp [numifyJS, hpb, hqb]
  simp only [compareInv, ha, hb, jsLt, toPrim, primToNum, JNum.ltb]
  by_cases h1 : qa < qb <;> by_cases h2 : qb < qa <;> simp [h1, h2]

/-- When both resolved values are strings kept as strings by the falsy test
(`parseFloat` gave 0 or NaN), the comparator compares them lexicographically. -/
theorem compareInv_lex (key : String) (a b : RankedInvestment) (sa sb : String)
    (hra : resolveSortValue key a = .str sa)
    (hrb : resolveSortValue key b = .str sb)
    (hna : numifyJS (.str sa) = .str sa) (hnb : numifyJS (.str sb) = .str sb) :
    compareInv { key := key, direction := .asc } a b
      = if lexLt sa.data sb.data then -1 else if lexLt sb.data sa.data then 1 else 0 := by
  simp only [compareInv, hra, hrb, hna, hnb, jsLt, toPrim]

/-- C5 (amended): a resolved string is compared numerically only when its
`parseFloat` value is truthy (nonzero, non-NaN); two resolved strings that
both stay strings — including all strings whose longest numeric prefix is 0,
such as "0" and "00" — compare lexicographically; the sort is a stable
permutation (elements whose comparator vanishes keep their relative order);
and descending only flips the comparator's sign, never the tie-break. -/
theorem c5_sort_amended :
    (∀ key a b, compareInv { key := key, direction := .desc } a b
        = -compareInv { key := key, direction := .asc } a b)
    ∧ (∀ key a b sa sb (qa qb : ℚ), resolveSortValue key a = .str sa →
        resolveSortValue key b = .str sb →
        parseFloat sa = .fin qa → parseFloat sb = .fin qb → qa ≠ 0 → qb ≠ 0 →
        compareInv { key := key, direction := .asc } a b
          = if qa < qb then -1 else if qb < qa then 1 else 0)
    ∧ (∀ key a b sa sb, resolveSortValue key a = .str sa →
        resolveSortValue key b = .str sb →
        numifyJS (.str sa) = .str sa → numifyJS (.str sb) = .str sb →
        compareInv { key := key, direction := .asc } a b
          = if lexLt sa.data sb.data then -1 else if lexLt sb.data sa.data then 1 else 0)
    ∧ (∀ sc (l : List RankedInvestment), (sortInvestments sc l).Perm l)
    ∧ (∀ sc (a b : RankedInvestment) l, [a, b].Sublist l → compareInv sc a b = 0 →
        [a, b].Sublist (sortInvestments sc l)) := by
  refine ⟨compareInv_flip, ?_, ?_, ?_, ?_⟩
  · intro key a b sa sb qa qb hra hrb hpa hpb hqa hqb
    exact compareInv_numeric key a b sa sb qa qb hra hrb hpa hpb hqa hqb
  · intro key a b sa sb hra hrb hna hnb
    exact compareInv_lex key a b sa sb hra hrb hna hnb
  · intro sc l
    exact jsSort_perm _ l
  · intro sc a b l hab h0
    refine jsSort_stable_pair _ hab ?_
    simp [compareInv_swap_zero h0]

/-- Witness for `c5_sort_amended`: the overall scores "9" and "10" compare
numerically, so "9" orders before "10" ascending. -/
theorem c5_sort_amended_witness :
    compareInv { key := "four_pillar_score.overall_score", direction := .asc }
      (mkInv "N" "NSE" "stock" "9") (mkInv "T" "NSE" "stock" "10")
      = if (9 : ℚ) < 10 then -1 else if (10 : ℚ) < 9 then 1 else 0 :=
  c5_sort_amended.2.1 "four_pillar_score.overall_score" _ _ "9" "10" 9 10
    (by decide) (by decide) (by decide) (by decide) (by decide) (by decide)

/-- C5 counterexample: the overall scores "00" and "0" both parse fully as
the decimal number 0, so the claim says they are equal keys and keep their
input order; the code compares them lexicographically (both have falsy
`parseFloat` values) and reorders them. -/
theorem c5_sort_counterexample :
    claimFullDecimal "00" = some 0
    ∧ claimFullDecimal "0" = some 0
    ∧ getFilteredAndSortedInvestments
        (some (mkAnalysis "i" "s"
          [mkInv "A" "NSE" "stock" "00", mkInv "B" "NSE" "stock" "0"] "csv"))
        ["NSE"] ["stock"] { key := "four_pillar_score.overall_score", direction := .asc }
      = [mkInv "B" "NSE" "stock" "0", mkInv "A" "NSE" "stock" "00"]
    ∧ mkInv "B" "NSE" "stock" "0" ≠ mkInv "A" "NSE" "stock" "00" := by
  refine ⟨by decide, by decide, by decide, by decide⟩

/-! ## Claim theorems: pagination -/

/-- C2 counterexample: the component computes `Math.ceil(n / p)` with no
`max(1, ...)` — the empty list gets `totalPages = 0`, not 1 — and an
out-of-range page is not clamped: page 5 of a 3-element list at page size 2
yields `[]`, not the items of the nearest valid page 2. -/
theorem c2_pagination_counterexample :
    totalPagesJS 0 10 = 0
    ∧ claimTotalPages 0 10 = 1
    ∧ (0 : ℕ) ≠ 1
    ∧ paginate ([1, 2, 3] : List ℕ) 2 5 = []
    ∧ claimTotalPages 3 2 = 2
    ∧ paginate ([1, 2, 3] : List ℕ) 2 2 = [3]
    ∧ ([] : List ℕ) ≠ [3] := by decide

/-- C2 (amended): `totalPages = ceil(n/p)` with no lower bound of 1 (so 0 for
the empty list); for any requested page `>= 1` the slice is total and equals
the drop/take window, pages in range get their items, and pages beyond
`totalPages` yield the empty list rather than a clamped page (pages below 1
follow JS negative-index slicing and also never throw). -/
theorem c2_pagination_amended (l : List α) (p : ℕ) (page : Int)
    (hp : 0 < p) (hpage : 1 ≤ page) :
    paginate l p page = (l.drop ((page - 1).toNat * p)).take p
    ∧ l.length ≤ totalPagesJS l.length p * p
    ∧ totalPagesJS l.length p * p < l.length + p
    ∧ ((totalPagesJS l.length p : Int) < page → paginate l p page = []) := by
  obtain ⟨m, hm⟩ : ∃ m : ℕ, page - 1 = (m : ℤ) :=
    ⟨(page - 1).toNat, (Int.toNat_of_nonneg (by omega)).symm⟩
  have hpg : page = (m : ℤ) + 1 := by omega
  subst hpg
  have htn : ((m : ℤ) + 1 - 1).toNat = m := by omega
  have hca : ((m : ℤ) + 1 - 1) * (p : ℤ) = ((m * p : ℕ) : ℤ) := by push_cast; ring
  have hcb : ((m : ℤ) + 1) * (p : ℤ) = ((m * p + p : ℕ) : ℤ) := by push_cast; ring
  have hslice : paginate l p ((m : ℤ) + 1) = (l.drop (m * p)).take p := by
    simp only [paginate, jsSlice, hca, hcb]
    rw [if_neg (by omega), if_neg (by omega)]
    have e1 : (min ((m * p : ℕ) : ℤ) (l.length : ℤ)).toNat = min (m * p) l.length := by
      omega
    have e2 : (min ((m * p + p : ℕ) : ℤ) (l.length : ℤ) - min ((m * p : ℕ) : ℤ) (l.length : ℤ)).toNat
        = min (m * p + p) l.length - min (m * p) l.length := by omega
    rw [e1, e2]
    by_cases hle : l.length ≤ m * p
    · rw [min_eq_right hle, List.drop_length, List.drop_eq_nil_of_le hle]
      simp
    · push_neg at hle
      rw [min_eq_left hle.le]
      rw [List.take_eq_take]
      rw [List.length_drop]
      omega
  have hdm := Nat.div_add_mod (l.length + p - 1) p
  have hmod : (l.length + p - 1) % p < p := Nat.mod_lt _ hp
  have hceil1 : l.length ≤ totalPagesJS l.length p * p := by
    simp only [totalPagesJS]
    rw [Nat.mul_comm]
    generalize hq : (l.length + p - 1) / p = q at hdm ⊢
    generalize hr : (l.length + p - 1) % p = r at hdm hmod
    generalize hs : p * q = s at hdm ⊢
    omega
  have hceil2 : totalPagesJS l.length p * p < l.length + p := by
    simp only [totalPagesJS]
    rw [Nat.mul_comm]
    generalize hq : (l.length + p - 1) / p = q at hdm ⊢
    generalize hr : (l.length + p - 1) % p = r at hdm hmod
    generalize hs : p * q = s at hdm ⊢
    omega
  refine ⟨by rw [hslice, htn], hceil1, hceil2, ?_⟩
  intro hlt
  have hqm : totalPagesJS l.length p ≤ m := by omega
  have : l.length ≤ m * p :=
    le_trans hceil1 (Nat.mul_le_mul_right p hqm)
  rw [hslice, List.drop_eq_nil_of_le this, List.take_nil]

/-- Witness for `c2_pagination_amended` on a 3-element list at page size 2,
page 2. -/
theorem c2_pagination_amended_witness :
    paginate ([10, 20, 30] : List ℕ) 2 2
        = (([10, 20, 30] : List ℕ).drop (((2 : ℤ) - 1).toNat * 2)).take 2
    ∧ ([10, 20, 30] : List ℕ).length ≤ totalPagesJS ([10, 20, 30] : List ℕ).length 2 * 2
    ∧ totalPagesJS ([10, 20, 30] : List ℕ).length 2 * 2
        < ([10, 20, 30] : List ℕ).length + 2
    ∧ ((totalPagesJS ([10, 20, 30] : List ℕ).length 2 : ℤ) < 2 →
        paginate ([10, 20, 30] : List ℕ) 2 2 = []) :=
  c2_pagination_amended [10, 20, 30] 2 2 (by decide) (by decide)

/-! ## Claim theorems: score codec -/

/-- C4 counterexample: `pillarToPercentage "N/A"` is 50, not the table's 0
(the looked-up 0 is falsy, so `|| 50` overrides it), and a parseable score
above 10 is not clamped: "15" maps to 150, outside [0, 100]. -/
theorem c4_score_codec_counterexample :
    pillarToPercentage "N/A" = 50
    ∧ (50 : ℕ) ≠ 0
    ∧ scoreToPercentage "15" = JNum.fin 150
    ∧ ¬((150 : ℚ) ≤ 100) := by
  refine ⟨by decide, by decide, ?_, by norm_num⟩
  have h : parseFloat "15" = JNum.fin 15 := by decide
  simp only [scoreToPercentage, h]
  norm_num

/-- C4 (amended): a parseable score maps to `score/10*100` with no clamping
(landing in [0, 100] exactly when the score is in [0, 10]); unparseable input
maps to 0 and never raises; the labels map per the fixed table except that
`N/A` yields 50 — its 0 entry is suppressed by the `|| 50` falsy default —
and any unrecognized label yields 50. -/
theorem c4_score_codec_amended :
    (∀ s, parseFloat s = JNum.nan → scoreToPercentage s = JNum.fin 0)
    ∧ (∀ s (q : ℚ), parseFloat s = JNum.fin q →
        scoreToPercentage s = JNum.fin (q / 10 * 100))
    ∧ (∀ s (q : ℚ), parseFloat s = JNum.fin q → 0 ≤ q → q ≤ 10 →
        ∃ x : ℚ, scoreToPercentage s = JNum.fin x ∧ 0 ≤ x ∧ x ≤ 100)
    ∧ pillarToPercentage "Excellent" = 95
    ∧ pillarToPercentage "Very Good" = 85
    ∧ pillarToPercentage "Strong" = 80
    ∧ pillarToPercentage "Good" = 70
    ∧ pillarToPercentage "Moderate" = 60
    ∧ pillarToPercentage "Solid (hard asset)" = 75
    ∧ pillarToPercentage "Index-based" = 85
    ∧ pillarToPercentage "N/A" = 50
    ∧ (∀ s, pillarMapLookup s = none → pillarToPercentage s = 50) := by
  refine ⟨?_, ?_, ?_, by decide, by decide, by decide, by decide, by decide,
    by decide, by decide, by decide, ?_⟩
  · intro s h
    simp [scoreToPercentage, h]
  · intro s q h
    simp [scoreToPercentage, h]
  · intro s q h h0 h10
    refine ⟨q / 10 * 100, by simp [scoreToPercentage, h], ?_, ?_⟩
    · have e : q / 10 * 100 = 10 * q := by ring
      rw [e]; linarith
    · have e : q / 10 * 100 = 10 * q := by ring
      rw [e]; linarith
  · intro s h
    simp [pillarToPercentage, h]

/-- Witness for `c4_score_codec_amended`: unparseable input maps to 0 and an
unrecognized label maps to 50. -/
theorem c4_score_codec_amended_witness :
    scoreToPercentage "garbage" = JNum.fin 0
    ∧ pillarToPercentage "Mediocre" = 50 :=
  ⟨c4_score_codec_amended.1 "garbage" (by decide),
   c4_score_codec_amended.2.2.2.2.2.2.2.2.2.2.2 "Mediocre" (by decide)⟩
